import Mathlib

/-!
Shallow embedding of the ACL compressed-clip codec of
`src/addons/blender_uasset_addon/unreal/acl.py` (Blender-Uasset-Addon).

Bytes are modelled as `List Nat` (each entry a byte value), Python floats as
exact rationals `ℚ`, Python ints as `Nat`/`Int`.  The sequential byte cursor
(the repository's `io_util` module, which is not under `src/`) is modelled
from the spec: little-endian fixed-width reads, raw byte reads that return at
most the remaining bytes, and `io.check` which raises on mismatch (spec §7
classifies the tag/version checks as UnsupportedFormat and the structural
checks as CorruptData).  IEEE-754 float32 values are decoded to their exact
rational value; NaN/Inf payloads (exponent field 255) are not representable
in `ℚ` and decode to 0 in the model (no claim depends on them).
-/

deriving instance DecidableEq for Except

namespace Acl

/-- Error outcomes of a decode.  `corruptData` models the `RuntimeError`
raised by a failed structural `io.check`; `unsupportedFormat` models the
explicit format rejections (and the tag/version checks, spec §7);
`indexError` a Python IndexError from an out-of-range list lookup;
`nameError` a Python NameError from reading an unassigned local;
`eof` a failed fixed-width read past the end of the stream. -/
inductive Err where
  | eof
  | corruptData
  | unsupportedFormat
  | indexError
  | nameError
deriving DecidableEq, Repr

/-- A sequential byte cursor, mirroring the Python file object threaded
through `read`: the bytes not yet consumed, plus the absolute position
(`f.tell()`). -/
structure Cursor where
  rest : List Nat
  pos : Nat
deriving DecidableEq, Repr

/-- A computation over the byte cursor that can fail. -/
def ByteParser (α : Type) : Type := Cursor → Except Err (α × Cursor)

instance : Monad ByteParser where
  pure a := fun c => .ok (a, c)
  bind m f := fun c =>
    match m c with
    | .ok (a, c2) => f a c2
    | .error e => .error e

/-- Addition on ℚ by numerator/denominator (definitionally reducible, unlike
the sealed library operation; `qAdd_eq` bridges to `+`).  Python float
arithmetic is modelled as exact rational arithmetic. -/
def qAdd (a b : ℚ) : ℚ := mkRat (a.num * b.den + b.num * a.den) (a.den * b.den)

/-- Multiplication on ℚ by numerator/denominator (see `qAdd`). -/
def qMul (a b : ℚ) : ℚ := mkRat (a.num * b.num) (a.den * b.den)

/-- Subtraction on ℚ by numerator/denominator (see `qAdd`). -/
def qSub (a b : ℚ) : ℚ := mkRat (a.num * b.den - b.num * a.den) (a.den * b.den)

/-- Negation on ℚ by numerator/denominator (see `qAdd`). -/
def qNeg (a : ℚ) : ℚ := mkRat (-a.num) a.den

/-- Division on ℚ by numerator/denominator (see `qAdd`). -/
def qDiv (a b : ℚ) : ℚ := Rat.divInt (a.num * b.den) (a.den * b.num)

/-- Floor of a rational as an integer (floor division of numerator by
denominator). -/
def qFloor (a : ℚ) : Int := a.num.fdiv a.den

theorem qAdd_eq (a b : ℚ) : qAdd a b = a + b := (Rat.add_def' a b).symm

theorem qMul_eq (a b : ℚ) : qMul a b = a * b := by
  rw [qMul, Rat.mul_def, Rat.normalize_eq_mkRat]

theorem qSub_eq (a b : ℚ) : qSub a b = a - b := (Rat.sub_def' a b).symm

theorem qNeg_eq (a : ℚ) : qNeg a = -a := by
  rw [qNeg, ← Rat.neg_mkRat, Rat.mkRat_self]

theorem qDiv_eq (a b : ℚ) : qDiv a b = a / b := by
  by_cases hb : b.num = 0
  · have hb0 : b = 0 := by
      rwa [Rat.num_eq_zero] at hb
    simp [qDiv, hb, hb0, Rat.divInt_zero]
  · rw [qDiv, Rat.div_def, Rat.inv_def]
    conv_rhs => rw [← Rat.num_divInt_den a]
    rw [Rat.divInt_mul_divInt _ _ (by exact_mod_cast a.den_nz) hb]

/-- Model of `f.tell()`. -/
def tell : ByteParser Nat := fun c => .ok (c.pos, c)

/-- Model of `f.read(n)`: returns up to `n` bytes, advancing by the number
of bytes actually returned (Python file semantics at EOF). -/
def readRaw (n : Nat) : ByteParser (List Nat) :=
  fun c =>
    let bs := c.rest.take n
    .ok (bs, ⟨c.rest.drop n, c.pos + bs.length⟩)

/-- Raise an error, keeping no result. -/
def throwP (e : Err) : ByteParser α := fun _ => .error e

/-- Modelled from the spec: `io.check(a, b)` with no message raises on a
structural mismatch (CorruptData class, spec §7). -/
def check [DecidableEq α] (a b : α) : ByteParser Unit :=
  if a = b then pure () else throwP .corruptData

/-- Modelled from the spec: `io.check(a, b, msg='Unsupported ...')` used for
the buffer tag and version (UnsupportedFormat class, spec §7). -/
def checkU [DecidableEq α] (a b : α) : ByteParser Unit :=
  if a = b then pure () else throwP .unsupportedFormat

/-- Lift a pure `Except` computation into the cursor monad. -/
def liftE (x : Except Err α) : ByteParser α :=
  fun c => x.map (fun a => (a, c))

/-- Modelled from the spec: read one byte (fails at EOF like `struct` would). -/
def ru8 : ByteParser Nat := fun c =>
  match c.rest with
  | b :: bs => .ok (b, ⟨bs, c.pos + 1⟩)
  | [] => .error .eof

/-- Modelled from the spec: `io.read_uint16`, little-endian. -/
def ru16 : ByteParser Nat := do
  let a ← ru8
  let b ← ru8
  pure (a + 256 * b)

/-- Modelled from the spec: `io.read_uint32`, little-endian. -/
def ru32 : ByteParser Nat := do
  let a ← ru8
  let b ← ru8
  let c ← ru8
  let d ← ru8
  pure (a + 256 * b + 65536 * c + 16777216 * d)

/-- Modelled from the spec: a signed 32-bit little-endian read
(two's complement). -/
def ri32 : ByteParser Int := do
  let v ← ru32
  pure (if v < 2 ^ 31 then (v : Int) else (v : Int) - 2 ^ 32)

/-- Modelled from the spec: a signed 8-bit read (two's complement),
used by `io.read_vec3_i8`. -/
def ri8 : ByteParser Int := do
  let v ← ru8
  pure (if v < 128 then (v : Int) else (v : Int) - 256)

/-- Exact rational value of an IEEE-754 float32 bit pattern
(sign * mantissa-value * 2^(max e 1) / 2^150; exponent field 255 — NaN/Inf —
maps to 0, see the file header note). -/
def decodeF32 (n : Nat) : ℚ :=
  let e := n / 2 ^ 23 % 256
  let m := n % 2 ^ 23
  if e = 255 then 0
  else
    let mag : ℚ := mkRat (((if e = 0 then m else 2 ^ 23 + m) * 2 ^ max e 1 : Nat) : Int) (2 ^ 150)
    if n / 2 ^ 31 % 2 = 1 then qNeg mag else mag

/-- Round a nonnegative rational to the nearest natural, ties to even
(IEEE round-to-nearest-even, used when re-encoding a float32). -/
def rhe (q : ℚ) : Nat :=
  let n := (qFloor q).toNat
  let r := qSub q ((qFloor q : Int) : ℚ)
  if r < mkRat 1 2 then n
  else if mkRat 1 2 < r then n + 1
  else if n % 2 = 0 then n else n + 1

/-- Modelled from the spec: encode a rational as an IEEE-754 float32 bit
pattern (round to nearest, ties to even), as `struct.pack('<f', x)` would;
used by the write-side `io.write_vec3_f32` / `io.write_float32_array`. -/
def encodeF32 (x : ℚ) : Nat :=
  if x = 0 then 0
  else
    let s : Nat := if x < 0 then 2 ^ 31 else 0
    let a := if x < 0 then qNeg x else x
    let t := qMul a ((2 ^ 127 : Nat) : ℚ)
    let e := ((List.range 255).filter (fun k => 2 ^ k * t.den ≤ t.num.toNat)).foldr max 0
    if e = 0 then
      let m := rhe (qMul a ((2 ^ 149 : Nat) : ℚ))
      if 2 ^ 23 ≤ m then s + 2 ^ 23 else s + m
    else
      let m := rhe (qDiv (qMul a ((2 ^ 150 : Nat) : ℚ)) ((2 ^ e : Nat) : ℚ))
      if m < 2 ^ 24 then s + e * 2 ^ 23 + (m - 2 ^ 23)
      else if e + 1 < 255 then s + (e + 1) * 2 ^ 23
      else s + 255 * 2 ^ 23

/-- Modelled from the spec: `io.read_float32` (4 little-endian bytes as a
float32), element of `io.read_float32_array` / `io.read_vec3_f32`. -/
def rf32 : ByteParser ℚ := do
  let w ← ru32
  pure (decodeF32 w)

/-- Modelled from the spec: `io.read_array(f, fn, length)` — read `length`
records with `fn`. -/
def readArrayP (f : ByteParser α) (n : Nat) : ByteParser (List α) :=
  (List.range n).mapM (fun _ => f)

/-- Python list indexing `l[i]` for a nonnegative index: IndexError when out
of range. -/
def listIndex (l : List α) (i : Nat) : Except Err α :=
  if h : i < l.length then .ok (l.get ⟨i, h⟩) else .error .indexError

/-- Python slice `l[a:b]` for natural bounds (clamping, never failing). -/
def pySlice (l : List α) (a b : Nat) : List α :=
  (l.drop a).take (b - a)

/-- Python slice `l[a:b]` for possibly negative `int` bounds (negative
indices count from the end, then clamp). -/
def pySliceI (l : List α) (a b : Int) : List α :=
  let n : Int := l.length
  let a2 := if a < 0 then max 0 (n + a) else min a n
  let b2 := if b < 0 then max 0 (n + b) else min b n
  if b2 ≤ a2 then [] else (l.drop a2.toNat).take (b2 - a2).toNat

/-- The 8 bits of one byte, most significant first
(`format(i, "b").zfill(8)` for a byte value). -/
def byteBits (w : Nat) : List Bool :=
  (List.range 8).map (fun j => w.testBit (7 - j))

/-- The 32 bits of one bitset word, most significant first
(`format(i, "b").zfill(32)` for a 32-bit value). -/
def wordBits32 (w : Nat) : List Bool :=
  (List.range 32).map (fun j => w.testBit (31 - j))

/-- `int(b, 2)` on a binary string, modelled over `List Bool`
(the empty string never occurs in a decode reaching this point). -/
def binToNat (l : List Bool) : Nat :=
  l.foldl (fun a b => 2 * a + (if b then 1 else 0)) 0

/-- `ClipHeader` (ctypes little-endian packed struct, 32 bytes), plus the
`offset` attribute set by `ClipHeader.read`. -/
structure ClipHeader where
  num_bones : Nat
  num_segments : Nat
  rotation_format : Nat
  translation_format : Nat
  scale_format : Nat
  clip_range_reduction : Nat
  segment_range_reduction : Nat
  has_scale : Nat
  default_scale : Nat
  padding : Nat
  num_samples : Nat
  sample_rate : Nat
  segment_headers_offset : Nat
  default_tracks_bitset_offset : Nat
  constant_tracks_bitset_offset : Nat
  constant_tracks_data_offset : Nat
  clip_range_data_offset : Nat
  padding2 : Nat
  offset : Nat
deriving DecidableEq, Repr

/-- `ClipHeader.ROTATION_FORMAT`. -/
def ROTATION_FORMAT : List String :=
  ["Quat_128", "QuatDropW_96", "QuatDropW_48", "QuatDropW_32", "QuatDropW_Variable"]

/-- `ClipHeader.VECTOR_FORMAT`. -/
def VECTOR_FORMAT : List String :=
  ["Vector3_96", "Vector3_48", "Vector3_32", "Vector3_Variable"]

/-- `ClipHeader.RANGE_REDUCTION_FLAGS` (8 entries, three of them `None`). -/
def RANGE_REDUCTION_FLAGS : List (Option String) :=
  [some "None", some "Rotations", some "Translations", none,
   some "Scales", none, none, some "AllTracks"]

/-- `ClipHeader.read`: record the offset, then read the packed fields. -/
def ClipHeader.read : ByteParser ClipHeader := do
  let offset ← tell
  let num_bones ← ru16
  let num_segments ← ru16
  let rotation_format ← ru8
  let translation_format ← ru8
  let scale_format ← ru8
  let clip_range_reduction ← ru8
  let segment_range_reduction ← ru8
  let has_scale ← ru8
  let default_scale ← ru8
  let padding ← ru8
  let num_samples ← ru32
  let sample_rate ← ru32
  let segment_headers_offset ← ru16
  let default_tracks_bitset_offset ← ru16
  let constant_tracks_bitset_offset ← ru16
  let constant_tracks_data_offset ← ru16
  let clip_range_data_offset ← ru16
  let padding2 ← ru16
  pure { num_bones, num_segments, rotation_format, translation_format,
         scale_format, clip_range_reduction, segment_range_reduction,
         has_scale, default_scale, padding, num_samples, sample_rate,
         segment_headers_offset, default_tracks_bitset_offset,
         constant_tracks_bitset_offset, constant_tracks_data_offset,
         clip_range_data_offset, padding2, offset }

/-- `ClipHeader.get_default_tracks_bitset_size` (a negative Python result is
only ever floor-divided by 4 and fed to a length, where it acts as 0, which
the truncated `Nat` subtraction matches). -/
def ClipHeader.get_default_tracks_bitset_size (h : ClipHeader) : Nat :=
  h.constant_tracks_bitset_offset - h.default_tracks_bitset_offset

/-- `ClipHeader.get_constant_tracks_bitset_size`. -/
def ClipHeader.get_constant_tracks_bitset_size (h : ClipHeader) : Nat :=
  h.constant_tracks_data_offset - h.constant_tracks_bitset_offset

/-- `ClipHeader.get_constant_tracks_data_size`. -/
def ClipHeader.get_constant_tracks_data_size (h : ClipHeader) : Nat :=
  h.clip_range_data_offset - h.constant_tracks_data_offset

/-- `SegmentHeader` (ctypes little-endian packed struct, 20 bytes), plus the
`offset` attribute set by `SegmentHeader.read`. -/
structure SegmentHeader where
  num_samples : Nat
  animated_pose_bit_size : Int
  format_per_track_data_offset : Int
  range_data_offset : Int
  track_data_offset : Int
  offset : Nat
deriving DecidableEq, Repr

/-- `SegmentHeader.read`. -/
def SegmentHeader.read : ByteParser SegmentHeader := do
  let offset ← tell
  let num_samples ← ru32
  let animated_pose_bit_size ← ri32
  let format_per_track_data_offset ← ri32
  let range_data_offset ← ri32
  let track_data_offset ← ri32
  pure { num_samples, animated_pose_bit_size, format_per_track_data_offset,
         range_data_offset, track_data_offset, offset }

/-- `RangeData`: a `(min, extent)` pair of 3-vectors.  Clip-level entries
hold float32 values, segment-level entries hold raw signed bytes; both are
plain numbers in Python and live in `ℚ` here. -/
structure RangeData where
  min_xyz : List ℚ
  extent_xyz : List ℚ
deriving DecidableEq, Repr

/-- `RangeData.read`: signed bytes for a segment entry, float32 triples for
a clip entry. -/
def RangeData.read (segment : Bool) : ByteParser RangeData := do
  if segment then
    let m ← readArrayP (do let v ← ri8; pure ((v : ℚ))) 3
    let e ← readArrayP (do let v ← ri8; pure ((v : ℚ))) 3
    pure { min_xyz := m, extent_xyz := e }
  else
    let m ← readArrayP rf32 3
    let e ← readArrayP rf32 3
    pure { min_xyz := m, extent_xyz := e }

/-- `RangeData.unpack_elem`: `elem * range_extent + range_min`. -/
def RangeData.unpack_elem (elem range_min range_extent : ℚ) : ℚ :=
  qAdd (qMul elem range_extent) range_min

/-- `RangeData.unpack`: apply `unpack_elem` componentwise (Python `zip`
truncates to the shortest of the three lists). -/
def RangeData.unpack (rd : RangeData) (xyz : List ℚ) : List ℚ :=
  (xyz.zip (rd.min_xyz.zip rd.extent_xyz)).map
    (fun p => RangeData.unpack_elem p.1 p.2.1 p.2.2)

/-- `BoneTrack`: per-bone flags, constants and decoded track data. -/
structure BoneTrack where
  use_default : List Bool
  use_constant : List Bool
  constant_list : List ℚ
  track_data : List (List (List ℚ))
deriving DecidableEq, Repr

/-- The flag-string rule shared by `set_use_default` / `set_use_constant`:
convert the per-bone flag slice and append one `True` when it does not have
exactly 3 entries (the absent-scale case). -/
def applyFlagString (s : List Bool) : List Bool :=
  if s.length ≠ 3 then s ++ [true] else s

/-- `BoneTrack.get_constant_count`: 3 floats per component that is not
default but is constant. -/
def BoneTrack.get_constant_count (t : BoneTrack) : Nat :=
  ((t.use_default.zip t.use_constant).countP (fun p => !p.1 && p.2)) * 3

/-- `BoneTrack.get_range_count`: `3 - sum(use_constant)` (a Python `int`,
so it can in principle go negative when the flag list is longer than 3). -/
def BoneTrack.get_range_count (t : BoneTrack) : Int :=
  3 - (t.use_constant.countP (fun b => b))

/-- `get_tracks_flags` (local function in `CompressedClip.read`): expand the
bitset words MSB-first and keep the first `num_bones * num_attributes`
flags. -/
def get_tracks_flags (bitset : List Nat) (num_bones num_attributes : Nat) : List Bool :=
  (bitset.flatMap wordBits32).take (num_bones * num_attributes)

/-- `CompressedClip.BIT_RATE_NUM_BITS`. -/
def BIT_RATE_NUM_BITS : List Nat :=
  [0, 3, 4, 5, 6, 7, 8, 9, 10, 11, 12, 13, 14, 15, 16, 17, 18, 19, 32]

/-- The per-bone loop of `CompressedClip.read` (lines 319–326): set the
flags from the bitset slices, take this bone's constants from the shared
constant array at the running index, and accumulate the constant and range
counts. -/
def setupBoneTracksGo (dflags cflags : List Bool) (na : Nat) (cdata : List ℚ) :
    Nat → Nat → Nat → Int → List BoneTrack × Nat × Int
  | _, 0, cc, rc => ([], cc, rc)
  | i, n + 1, cc, rc =>
    let ud := applyFlagString (pySlice dflags (i * na) ((i + 1) * na))
    let uc := applyFlagString (pySlice cflags (i * na) ((i + 1) * na))
    let t0 : BoneTrack := ⟨ud, uc, [], []⟩
    let ccount := t0.get_constant_count
    let t : BoneTrack := { t0 with constant_list := pySlice cdata cc (cc + ccount) }
    let (ts, cc2, rc2) :=
      setupBoneTracksGo dflags cflags na cdata (i + 1) n (cc + ccount) (rc + t.get_range_count)
    (t :: ts, cc2, rc2)

/-- Entry point of the per-bone loop over all `num_bones` bones. -/
def setupBoneTracks (dflags cflags : List Bool) (na : Nat) (cdata : List ℚ)
    (nb : Nat) : List BoneTrack × Nat × Int :=
  setupBoneTracksGo dflags cflags na cdata 0 nb 0 0

/-- The body of the per-component unpack loop of `CompressedClip.read`
(lines 365–390): slice this component's codes out of the bitstream, convert
them, and apply the segment-level and then the clip-level range map (neither
is applied in the 32-bit full-precision case; with bit width 0 every code is
the integer 0 and `max_int` keeps whatever value an earlier iteration gave
it — reading it while still unassigned is the Python NameError). -/
def unpackComponent (binary : List Bool) (track_data_size idx bits num_samples : Nat)
    (max_int : Option Nat) (srds : List (Option RangeData)) (rid : Nat)
    (rd : RangeData) : Except Err (List (List ℚ) × Option Nat) :=
  let im : List Nat × Option Nat :=
    if bits ≠ 0 then
      let bone_track_bin := (List.range num_samples).map
        (fun i => (binary.drop (i * track_data_size + idx)).take (bits * 3))
      let chunks := bone_track_bin.flatMap
        (fun b => (List.range 3).map (fun j => (b.drop (j * bits)).take bits))
      (chunks.map binToNat, some ((1 <<< bits) - 1))
    else (List.replicate (num_samples * 3) 0, max_int)
  let ints := im.1
  let mi := im.2
  if bits ≠ 32 then do
    let floats ←
      if ints.isEmpty then Except.ok ([] : List ℚ)
      else
        match mi with
        | none => Except.error Err.nameError
        | some m => Except.ok (ints.map (fun i => qDiv ((i : Nat) : ℚ) ((m : Nat) : ℚ)))
    let xyzs := (List.range num_samples).map (fun i => (floats.drop (i * 3)).take 3)
    let srd ← listIndex srds rid
    let xyzs :=
      match srd with
      | some s => xyzs.map s.unpack
      | none => xyzs
    Except.ok (xyzs.map rd.unpack, mi)
  else
    let floats := ints.map decodeF32
    let xyzs := (List.range num_samples).map (fun i => (floats.drop (i * 3)).take 3)
    Except.ok (xyzs, mi)

/-- The `for bits, rd, rid in zip(bit_rates, range_data, range(range_count))`
loop (lines 368–390): thread the bit offset `idx` and `max_int`, and append
each component's samples to its slot of `bone_track_floats`. -/
def unpackLoop (binary : List Bool) (track_data_size num_samples : Nat)
    (srds : List (Option RangeData)) :
    List (Nat × RangeData) → Nat → Nat → Option Nat → List (List (List ℚ)) →
    Except Err (List (List (List ℚ)) × Option Nat)
  | [], _, _, mi, btf => Except.ok (btf, mi)
  | (bits, rd) :: rest, rid, idx, mi, btf => do
    let (xyzs, mi2) ← unpackComponent binary track_data_size idx bits num_samples mi srds rid rd
    unpackLoop binary track_data_size num_samples srds rest (rid + 1) (idx + bits * 3) mi2
      (btf.set rid (btf.getD rid [] ++ xyzs))

/-- State threaded through the per-segment loop of `CompressedClip.read`:
the growing `bone_track_floats` pool, plus the Python locals `bit_rates`,
`track_data` and `max_int`, which are `none` while still unassigned. -/
structure SegState where
  btf : List (List (List ℚ))
  bit_rates : Option (List Nat)
  track_data : Option (List Nat)
  max_int : Option Nat
deriving DecidableEq, Repr

/-- One iteration of the per-segment loop of `CompressedClip.read`
(lines 334–390): bit-rate table, pad-to-2, optional segment range data,
pad-to-4, packed track data, then the per-component unpack loop. -/
def processSegment (ch : ClipHeader) (seg_rr : Option String) (range_count : Int)
    (range_data : List RangeData) (st : SegState) (sh : SegmentHeader) :
    ByteParser SegState := do
  let ⟨btf0, _, _, max_int0⟩ := st
  if range_count ≠ 0 then do
    let pos ← tell
    check (pos : Int) (sh.format_per_track_data_offset + ch.offset)
  else pure ()
  let bitRateIdx ← readArrayP ru8 range_count.toNat
  let bit_rates ← liftE (bitRateIdx.mapM (listIndex BIT_RATE_NUM_BITS))
  let pos ← tell
  let num_padding := (2 - (pos - ch.offset) % 2) % 2
  let padB ← readRaw num_padding
  check padB (List.replicate num_padding 0xcd)
  let segment_range_data ←
    if seg_rr = some "AllTracks" then do
      let pos2 ← tell
      check (pos2 : Int) (sh.range_data_offset + ch.offset)
      let srd ← readArrayP (RangeData.read true) range_count.toNat
      pure (srd.map some)
    else pure (List.replicate range_count.toNat (none : Option RangeData))
  let pos3 ← tell
  let num_padding4 := (4 - (pos3 - ch.offset) % 4) % 4
  let padB4 ← readRaw num_padding4
  check padB4 (List.replicate num_padding4 0xcd)
  let track_data_size := bit_rates.sum * 3
  let num_samples := sh.num_samples
  let len := (track_data_size * num_samples + 7) / 8
  if range_count ≠ 0 then do
    let pos4 ← tell
    check (pos4 : Int) (sh.track_data_offset + ch.offset)
  else pure ()
  let track_data ← readArrayP ru8 len
  let binary := track_data.flatMap byteBits
  let (btf2, mi2) ← liftE (unpackLoop binary track_data_size num_samples segment_range_data
    (bit_rates.zip range_data) 0 0 max_int0 btf0)
  pure { btf := btf2, bit_rates := some bit_rates, track_data := some track_data,
         max_int := mi2 }

/-- The `set unpacked data` loop (lines 393–395): hand each bone its slice
of the decoded-sample pool, accumulating the running index. -/
def assignTrackData : List BoneTrack → List (List (List ℚ)) → Int →
    List BoneTrack × Int
  | [], _, idx => ([], idx)
  | t :: ts, floats, idx =>
    let rc := t.get_range_count
    let td := pySliceI floats idx (idx + rc)
    let (rest, idx2) := assignTrackData ts floats (idx + rc)
    ({ t with track_data := td } :: rest, idx2)

/-- `CompressedClip`: the aggregate decoded object. -/
structure CompressedClip where
  offset : Nat
  size : Nat
  data_hash : List Nat
  clip_header : ClipHeader
  segment_headers : List SegmentHeader
  default_tracks_bitset : List Nat
  constant_tracks_bitset : List Nat
  range_data : List RangeData
  bit_rates : List Nat
  track_data : List Nat
  bone_tracks : List BoneTrack
deriving DecidableEq, Repr

/-- `CompressedClip.read` (lines 255–402). -/
def CompressedClip.read : ByteParser CompressedClip := do
  let offset ← tell
  let size ← ru32
  let data_hash ← readRaw 4
  let buffer_tag ← readRaw 4
  checkU buffer_tag [0x10, 0xac, 0x10, 0xac]
  let ver ← ru16
  checkU ver 3
  let alg ← ru8
  check alg 0
  let pad ← ru8
  check pad 0
  let clip_header ← ClipHeader.read
  let segment_headers ← readArrayP SegmentHeader.read clip_header.num_segments
  let clip_rr ← liftE (listIndex RANGE_REDUCTION_FLAGS clip_header.clip_range_reduction)
  if clip_rr ≠ some "AllTracks" then throwP .unsupportedFormat else pure ()
  let seg_rr ← liftE (listIndex RANGE_REDUCTION_FLAGS clip_header.segment_range_reduction)
  if ¬ (seg_rr = some "None" ∨ seg_rr = some "AllTracks") then
    throwP .unsupportedFormat
  else pure ()
  let rot_format ← liftE (listIndex ROTATION_FORMAT clip_header.rotation_format)
  let trans_format ← liftE (listIndex VECTOR_FORMAT clip_header.translation_format)
  let scale_format ← liftE (listIndex VECTOR_FORMAT clip_header.scale_format)
  if rot_format ≠ "QuatDropW_Variable" then throwP .unsupportedFormat else pure ()
  if trans_format ≠ "Vector3_Variable" then throwP .unsupportedFormat else pure ()
  if scale_format ≠ "Vector3_Variable" then throwP .unsupportedFormat else pure ()
  if clip_header.default_scale ≠ 1 then throwP .unsupportedFormat else pure ()
  let num_attributes := 2 + clip_header.has_scale
  let default_tracks_bitset ← readArrayP ru32 (clip_header.get_default_tracks_bitset_size / 4)
  let constant_tracks_bitset ← readArrayP ru32 (clip_header.get_constant_tracks_bitset_size / 4)
  let default_tracks_flags := get_tracks_flags default_tracks_bitset clip_header.num_bones num_attributes
  let constant_tracks_flags := get_tracks_flags constant_tracks_bitset clip_header.num_bones num_attributes
  let constant_tracks_data ← readArrayP rf32 (clip_header.get_constant_tracks_data_size / 4)
  let (bone_tracks, _constant_count, range_count) :=
    setupBoneTracks default_tracks_flags constant_tracks_flags num_attributes
      constant_tracks_data clip_header.num_bones
  let posr ← tell
  check (posr : Int) ((clip_header.clip_range_data_offset : Int) + clip_header.offset)
  let range_data ← readArrayP (RangeData.read false) range_count.toNat
  let st0 : SegState :=
    { btf := List.replicate range_count.toNat [], bit_rates := none,
      track_data := none, max_int := none }
  let st ← segment_headers.foldlM (processSegment clip_header seg_rr range_count range_data) st0
  let ⟨btfF, bit_ratesF, track_dataF, _⟩ := st
  let (bone_tracks2, idx2) := assignTrackData bone_tracks btfF 0
  check idx2 ((btfF.length : Int))
  let tail ← readRaw 15
  check tail (List.replicate 15 0xcd)
  let pose ← tell
  check (pose - offset) size
  let bit_rates ←
    match bit_ratesF with
    | none => throwP .nameError
    | some br => pure br
  let track_data ←
    match track_dataF with
    | none => throwP .nameError
    | some td => pure td
  pure { offset, size, data_hash, clip_header, segment_headers,
         default_tracks_bitset, constant_tracks_bitset, range_data,
         bit_rates, track_data, bone_tracks := bone_tracks2 }

/-- Decode a byte stream positioned at the start of a compressed-clip
record. -/
def decode (d : List Nat) : Except Err CompressedClip :=
  (CompressedClip.read ⟨d, 0⟩).map (fun r => r.1)

/-- Modelled from the spec: `io.write_uint16` — two little-endian bytes. -/
def u16le (n : Nat) : List Nat :=
  [n % 256, n / 256 % 256]

/-- Modelled from the spec: `io.write_uint32` — four little-endian bytes. -/
def u32le (n : Nat) : List Nat :=
  [n % 256, n / 256 % 256, n / 65536 % 256, n / 16777216 % 256]

/-- Four little-endian bytes of a signed 32-bit value (two's complement),
used when re-serializing a `SegmentHeader`. -/
def i32le (i : Int) : List Nat :=
  u32le (i.emod (2 ^ 32)).toNat

/-- The 32 packed bytes of a `ClipHeader` (the ctypes buffer written by
`f.write(self.clip_header)`). -/
def ClipHeader.toBytes (h : ClipHeader) : List Nat :=
  u16le h.num_bones ++ u16le h.num_segments ++
  [h.rotation_format % 256, h.translation_format % 256, h.scale_format % 256,
   h.clip_range_reduction % 256, h.segment_range_reduction % 256,
   h.has_scale % 256, h.default_scale % 256, h.padding % 256] ++
  u32le h.num_samples ++ u32le h.sample_rate ++
  u16le h.segment_headers_offset ++ u16le h.default_tracks_bitset_offset ++
  u16le h.constant_tracks_bitset_offset ++ u16le h.constant_tracks_data_offset ++
  u16le h.clip_range_data_offset ++ u16le h.padding2

/-- The 20 packed bytes of a `SegmentHeader`. -/
def SegmentHeader.toBytes (h : SegmentHeader) : List Nat :=
  u32le h.num_samples ++ i32le h.animated_pose_bit_size ++
  i32le h.format_per_track_data_offset ++ i32le h.range_data_offset ++
  i32le h.track_data_offset

/-- `RangeData.write`: min then extent, always as float32 triples. -/
def RangeData.toBytes (rd : RangeData) : List Nat :=
  rd.min_xyz.flatMap (fun q => u32le (encodeF32 q)) ++
  rd.extent_xyz.flatMap (fun q => u32le (encodeF32 q))

/-- `CompressedClip.write` (lines 404–421): size, hash, tag, `uint32 3`
(covering version, algorithm type and padding), header, segment headers,
bitsets, re-encoded constant floats, re-encoded clip range data, bit-rate
indices, `4 - len % 4` sentinel bytes, the stored raw track bytes, and the
15-byte tail. -/
def CompressedClip.write (c : CompressedClip) : List Nat :=
  u32le c.size ++ c.data_hash ++ [0x10, 0xac, 0x10, 0xac] ++ u32le 3 ++
  c.clip_header.toBytes ++ c.segment_headers.flatMap SegmentHeader.toBytes ++
  c.default_tracks_bitset.flatMap u32le ++ c.constant_tracks_bitset.flatMap u32le ++
  (c.bone_tracks.flatMap (fun t => t.constant_list)).flatMap (fun q => u32le (encodeF32 q)) ++
  c.range_data.flatMap RangeData.toBytes ++
  (c.bit_rates.map (fun b => BIT_RATE_NUM_BITS.indexOf b)) ++
  List.replicate (4 - c.bit_rates.length % 4) 0xcd ++
  c.track_data ++
  List.replicate 15 0xcd

/-! ### Concrete test streams

Byte streams used to settle the claims on concrete inputs.  Each is a full
compressed-clip record laid out by hand; the section offsets in the headers
match the positions at which `CompressedClip.read` checks them. -/

/-- Little-endian float32 bytes of `1.0`. -/
def f32one : List Nat := [0, 0, 128, 63]

/-- Little-endian float32 bytes of `0.0`. -/
def f32zero : List Nat := [0, 0, 0, 0]

/-- A 148-byte single-segment record: 1 bone, no scale, both bitset words 0
(so `use_default = use_constant = [false, false, true]`, 2 range-reduced
components, no constant floats), clip ranges `min 0 / extent 1`, bit-rate
indices `[1, 1]` (3 bits), 2 samples, 5 packed track bytes.  The bit-rate
table starts 4-aligned relative to the clip header and `rangeCount % 4 = 2`,
so the 0 + 2 padding bytes consumed by `read` equal the `4 - len % 4 = 2`
bytes emitted by `write`: this is the layout on which the round trip holds.
The four hash bytes and five track bytes are arbitrary byte values. -/
def mkC1 (h1 h2 h3 h4 t1 t2 t3 t4 t5 : Nat) : List Nat :=
  u32le 148 ++ [h1, h2, h3, h4] ++ [0x10, 0xac, 0x10, 0xac] ++ [3, 0, 0, 0] ++
  u16le 1 ++ u16le 1 ++ [4, 3, 3, 7, 0, 0, 1, 0] ++ u32le 2 ++ u32le 30 ++
  u16le 32 ++ u16le 52 ++ u16le 56 ++ u16le 60 ++ u16le 60 ++ u16le 0 ++
  u32le 2 ++ i32le 18 ++ i32le 108 ++ i32le 0 ++ i32le 112 ++
  u32le 0 ++ u32le 0 ++
  (f32zero ++ f32zero ++ f32zero ++ f32one ++ f32one ++ f32one) ++
  (f32zero ++ f32zero ++ f32zero ++ f32one ++ f32one ++ f32one) ++
  [1, 1] ++ [0xcd, 0xcd] ++ [t1, t2, t3, t4, t5] ++ List.replicate 15 0xcd

/-- An 83-byte record with 0 bones and 1 segment (`rangeCount = 0`), on
which `read` succeeds after consuming 0 padding bytes before the track data,
while `write` always emits `4 - len(bit_rates) % 4 = 4` sentinel bytes
there, so the round trip fails. -/
def c1bad : List Nat :=
  u32le 83 ++ [0, 0, 0, 0] ++ [0x10, 0xac, 0x10, 0xac] ++ [3, 0, 0, 0] ++
  u16le 0 ++ u16le 1 ++ [4, 3, 3, 7, 0, 0, 1, 0] ++ u32le 0 ++ u32le 30 ++
  u16le 32 ++ u16le 52 ++ u16le 52 ++ u16le 52 ++ u16le 52 ++ u16le 0 ++
  u32le 0 ++ i32le 0 ++ i32le 0 ++ i32le 0 ++ i32le 0 ++
  List.replicate 15 0xcd

/-- A 68-byte stream that ends immediately after the clip header and the one
segment header: the 16-byte record prelude, a clip header whose
clip-range-reduction byte is `v`, and one segment header.  Nothing after the
headers is present, so a decode that fails with a format error (rather than
`eof`) demonstrably consumed nothing beyond the headers. -/
def mkC6 (v : Nat) : List Nat :=
  u32le 0 ++ [0, 0, 0, 0] ++ [0x10, 0xac, 0x10, 0xac] ++ [3, 0, 0, 0] ++
  u16le 1 ++ u16le 1 ++ [4, 3, 3, v, 0, 0, 1, 0] ++ u32le 2 ++ u32le 30 ++
  u16le 32 ++ u16le 52 ++ u16le 56 ++ u16le 60 ++ u16le 60 ++ u16le 0 ++
  u32le 2 ++ i32le 18 ++ i32le 108 ++ i32le 0 ++ i32le 112

/-- A 143-byte record with 1 bone and 2 segments, both with 0 samples,
1 range-reduced component, and per-segment bit-rate index bytes `r1`, `r2`.
Each segment consumes its bit-rate byte, 1 + 2 sentinel padding bytes, and
no track data. -/
def mkC9 (r1 r2 : Nat) : List Nat :=
  u32le 143 ++ [0, 0, 0, 0] ++ [0x10, 0xac, 0x10, 0xac] ++ [3, 0, 0, 0] ++
  u16le 1 ++ u16le 2 ++ [4, 3, 3, 7, 0, 0, 1, 0] ++ u32le 2 ++ u32le 30 ++
  u16le 32 ++ u16le 72 ++ u16le 76 ++ u16le 80 ++ u16le 80 ++ u16le 0 ++
  u32le 0 ++ i32le 0 ++ i32le 104 ++ i32le 0 ++ i32le 108 ++
  u32le 0 ++ i32le 0 ++ i32le 108 ++ i32le 0 ++ i32le 112 ++
  u32le 0x80000000 ++ u32le 0x80000000 ++
  (f32zero ++ f32zero ++ f32zero ++ f32one ++ f32one ++ f32one) ++
  [r1] ++ [0xcd] ++ [0xcd, 0xcd] ++
  [r2] ++ [0xcd] ++ [0xcd, 0xcd] ++
  List.replicate 15 0xcd

/-- A 119-byte record with 1 bone, 1 segment, 1 range-reduced component,
bit-rate index 0 (bit width 0), and segment sample count given by the four
little-endian bytes `n0..n3`.  The packed-track-data block is empty
(`0 bits * ns`), so the layout is the same for every sample count. -/
def mkC10 (n0 n1 n2 n3 : Nat) : List Nat :=
  u32le 119 ++ [0, 0, 0, 0] ++ [0x10, 0xac, 0x10, 0xac] ++ [3, 0, 0, 0] ++
  u16le 1 ++ u16le 1 ++ [4, 3, 3, 7, 0, 0, 1, 0] ++ u32le 2 ++ u32le 30 ++
  u16le 32 ++ u16le 52 ++ u16le 56 ++ u16le 60 ++ u16le 60 ++ u16le 0 ++
  [n0, n1, n2, n3] ++ i32le 0 ++ i32le 84 ++ i32le 0 ++ i32le 88 ++
  u32le 0x80000000 ++ u32le 0x80000000 ++
  (f32zero ++ f32zero ++ f32zero ++ f32one ++ f32one ++ f32one) ++
  [0] ++ [0xcd] ++ [0xcd, 0xcd] ++ List.replicate 15 0xcd

/-- The `mkC10` layout (0 samples) with its three padding runs as
parameters: the 1-byte pad-to-2 run after the bit-rate byte (`p1`), the
2-byte pad-to-4 run before the track data (`q1 q2`), and the 15-byte tail
(`tl`). -/
def mkPad (p1 q1 q2 : Nat) (tl : List Nat) : List Nat :=
  u32le 119 ++ [0, 0, 0, 0] ++ [0x10, 0xac, 0x10, 0xac] ++ [3, 0, 0, 0] ++
  u16le 1 ++ u16le 1 ++ [4, 3, 3, 7, 0, 0, 1, 0] ++ u32le 2 ++ u32le 30 ++
  u16le 32 ++ u16le 52 ++ u16le 56 ++ u16le 60 ++ u16le 60 ++ u16le 0 ++
  u32le 0 ++ i32le 0 ++ i32le 84 ++ i32le 0 ++ i32le 88 ++
  u32le 0x80000000 ++ u32le 0x80000000 ++
  (f32zero ++ f32zero ++ f32zero ++ f32one ++ f32one ++ f32one) ++
  [0] ++ [p1] ++ [q1, q2] ++ tl

/-- A 125-byte record: 1 bone, 1 segment, 1 range-reduced component with
bit-rate index 6 (8 bits), clip range `min 0 / extent 1`, no segment range
reduction, 2 samples whose three 8-bit sub-channel codes are `0x00` and
`0xFF` respectively. -/
def mkC4S : List Nat :=
  u32le 125 ++ [0, 0, 0, 0] ++ [0x10, 0xac, 0x10, 0xac] ++ [3, 0, 0, 0] ++
  u16le 1 ++ u16le 1 ++ [4, 3, 3, 7, 0, 0, 1, 0] ++ u32le 2 ++ u32le 30 ++
  u16le 32 ++ u16le 52 ++ u16le 56 ++ u16le 60 ++ u16le 60 ++ u16le 0 ++
  u32le 2 ++ i32le 24 ++ i32le 84 ++ i32le 0 ++ i32le 88 ++
  u32le 0x80000000 ++ u32le 0x80000000 ++
  (f32zero ++ f32zero ++ f32zero ++ f32one ++ f32one ++ f32one) ++
  [6] ++ [0xcd] ++ [0xcd, 0xcd] ++
  [0, 0, 0, 255, 255, 255] ++
  List.replicate 15 0xcd

/-- A 135-byte record: 1 bone, 1 segment, 1 range-reduced component with
bit-rate index 18 (bit width 32), segment range reduction `AllTracks` (six
signed range bytes present), 1 sample whose three sub-channels are the
big-endian float32 patterns `0xC0A00000` (-5.0), `0x00000000` (0.0) and
`0x00000001` (the smallest denormal). -/
def mkC5S : List Nat :=
  u32le 135 ++ [0, 0, 0, 0] ++ [0x10, 0xac, 0x10, 0xac] ++ [3, 0, 0, 0] ++
  u16le 1 ++ u16le 1 ++ [4, 3, 3, 7, 7, 0, 1, 0] ++ u32le 1 ++ u32le 30 ++
  u16le 32 ++ u16le 52 ++ u16le 56 ++ u16le 60 ++ u16le 60 ++ u16le 0 ++
  u32le 1 ++ i32le 96 ++ i32le 84 ++ i32le 86 ++ i32le 92 ++
  u32le 0x80000000 ++ u32le 0x80000000 ++
  (f32zero ++ f32zero ++ f32zero ++ f32one ++ f32one ++ f32one) ++
  [18] ++ [0xcd] ++
  [1, 2, 3, 4, 5, 6] ++
  [0xc0, 0xa0, 0, 0] ++ [0, 0, 0, 0] ++ [0, 0, 0, 1] ++
  List.replicate 15 0xcd

/-- A 91-byte record: 1 bone whose flags demand 6 constant floats
(`use_default = [F,F,T]`, `use_constant = [T,T,T]`) while the constant-data
section is empty (0 floats); `rangeCount = 0`. -/
def mkC3S : List Nat :=
  u32le 91 ++ [0, 0, 0, 0] ++ [0x10, 0xac, 0x10, 0xac] ++ [3, 0, 0, 0] ++
  u16le 1 ++ u16le 1 ++ [4, 3, 3, 7, 0, 0, 1, 0] ++ u32le 2 ++ u32le 30 ++
  u16le 32 ++ u16le 52 ++ u16le 56 ++ u16le 60 ++ u16le 60 ++ u16le 0 ++
  u32le 0 ++ i32le 0 ++ i32le 0 ++ i32le 0 ++ i32le 0 ++
  u32le 0 ++ u32le 0xC0000000 ++
  List.replicate 15 0xcd

/-! ### Claim theorems -/

set_option maxRecDepth 1000000
set_option maxHeartbeats 1000000

/-- C1 (counterexample): decode succeeds on the 0-bone single-segment
record `c1bad`, but re-encoding the resulting clip does not reproduce the
input bytes (`write` emits 4 sentinel bytes after the empty bit-rate table
where `read` consumed none, so the output is 87 bytes instead of 83). -/
theorem C1_roundtrip_counterexample :
    (decode c1bad).toOption.isSome = true ∧
    Except.map CompressedClip.write (decode c1bad) ≠ .ok c1bad := by
  decide

/-- C1 (amended): `encode (decode bytes) = bytes` does not hold for every
successfully decoded stream; it holds when the clip has a single segment, no
segment range data, and a layout in which the padding consumed between the
bit-rate table and the track data equals the `4 - rangeCount % 4` bytes that
`write` emits — as on the concrete 148-byte record `mkC1` (4-aligned
bit-rate table, `rangeCount = 2`). -/
theorem C1_roundtrip_amended :
    Except.map CompressedClip.write (decode (mkC1 222 173 190 239 1 2 3 4 5)) =
      .ok (mkC1 222 173 190 239 1 2 3 4 5) := by
  decide

/-- The count the spec attributes to `get_range_count`: the number of
components that are neither flagged default nor flagged constant. -/
def neitherDefaultNorConstantCount (t : BoneTrack) : Nat :=
  (t.use_default.zip t.use_constant).countP (fun p => !p.1 && !p.2)

/-- C2 (counterexample): a bone track whose first component is default but
not constant has `get_range_count = 3` while only 2 of its components are
neither default nor constant — `get_range_count` ignores the default
flags. -/
theorem C2_range_count_counterexample :
    BoneTrack.get_range_count ⟨[true, false, false], [false, false, false], [], []⟩ = 3 ∧
    neitherDefaultNorConstantCount ⟨[true, false, false], [false, false, false], [], []⟩ = 2 := by
  decide

/-- C2 (amended): `get_range_count` counts the components not flagged
constant (`3 - sum(use_constant)`); this equals the number of components
that are neither default nor constant exactly when every default-flagged
component is also constant-flagged. -/
theorem C2_range_count_amended (t : BoneTrack)
    (hd : t.use_default.length = 3) (hc : t.use_constant.length = 3)
    (h : ∀ i, t.use_default.getD i false = true → t.use_constant.getD i false = true) :
    t.get_range_count = neitherDefaultNorConstantCount t := by
  obtain ⟨ud, uc, cl, td⟩ := t
  simp only at hd hc
  obtain ⟨a, b, c, rfl⟩ := List.length_eq_three.mp hd
  obtain ⟨d, e, f, rfl⟩ := List.length_eq_three.mp hc
  have h0 := h 0
  have h1 := h 1
  have h2 := h 2
  simp only [List.getD_cons_zero, List.getD_cons_succ] at h0 h1 h2
  cases a <;> cases b <;> cases c <;> cases d <;> cases e <;> cases f <;>
    simp only [BoneTrack.get_range_count, neitherDefaultNorConstantCount] <;>
    first
      | decide
      | simp_all

/-- Witness for `C2_range_count_amended` on a track with
`use_default = [T,F,F]`, `use_constant = [T,T,F]`. -/
theorem C2_range_count_amended_witness :
    BoneTrack.get_range_count ⟨[true, false, false], [true, true, false], [], []⟩ =
      neitherDefaultNorConstantCount ⟨[true, false, false], [true, true, false], [], []⟩ :=
  C2_range_count_amended ⟨[true, false, false], [true, true, false], [], []⟩
    (by decide) (by decide)
    (by intro i; match i with
        | 0 => intro _; rfl
        | 1 => intro hx; exact absurd hx (by decide)
        | 2 => intro hx; exact absurd hx (by decide)
        | n + 3 =>
          intro hx
          simp only [List.getD_cons_succ, List.getD_nil] at hx
          exact absurd hx (by decide))

/-- C3 (counterexample): decode succeeds on `mkC3S` although the per-bone
flags demand 6 constant floats (sum of `get_constant_count`) and the
constant-data section holds 0 floats — no corrupt-data check relates the two
quantities. -/
theorem C3_missing_check_counterexample :
    Except.map
      (fun c => ((c.bone_tracks.map BoneTrack.get_constant_count).sum,
                 c.clip_header.get_constant_tracks_data_size / 4))
      (decode mkC3S) = .ok (6, 0) := by
  decide

/-- C6 (amended): a clip-range-reduction byte that is a valid index into the
8-entry flag table but does not denote `AllTracks` makes decode fail with
the unsupported-format error; the stream `mkC6 v` contains nothing after the
headers, so the error (rather than an end-of-stream failure) shows the rest
of the record was not consumed. -/
theorem C6_unsupported_flag_amended :
    ∀ v : Nat, v < 8 → v ≠ 7 → decode (mkC6 v) = .error .unsupportedFormat := by
  decide

/-- Witness for `C6_unsupported_flag_amended` at `v = 0`. -/
theorem C6_unsupported_flag_amended_witness :
    decode (mkC6 0) = .error .unsupportedFormat :=
  C6_unsupported_flag_amended 0 (by decide) (by decide)

/-- C6 (counterexample): a clip-range-reduction byte `8` (or any value past
the end of the 8-entry flag table) fails with an IndexError from the table
lookup, not with the UnsupportedFormat rejection the claim states. -/
theorem C6_flag_counterexample :
    decode (mkC6 8) = .error .indexError := by
  decide

set_option maxHeartbeats 8000000 in
/-- C9: the `bit_rates` (and `track_data`) stored on the `CompressedClip`
are the last segment's only.  First conjunct: one segment-loop iteration is
entirely independent of the `bit_rates` and `track_data` fields of the
incoming loop state — whatever an earlier segment stored is overwritten, not
merged.  Second conjunct: decoding the concrete two-segment record `mkC9`
yields the second segment's bit-width table (`index 5 ↦ 7` after `[2]`,
and with the two segment bytes swapped `index 2 ↦ 4` after `[5]`). -/
theorem C9_last_segment_bit_rates :
    (∀ (ch : ClipHeader) (seg_rr : Option String) (rc : Int)
        (rd : List RangeData) (btf : List (List (List ℚ)))
        (br1 td1 br2 td2 : Option (List Nat)) (mi : Option Nat)
        (sh : SegmentHeader),
      processSegment ch seg_rr rc rd ⟨btf, br1, td1, mi⟩ sh =
        processSegment ch seg_rr rc rd ⟨btf, br2, td2, mi⟩ sh) ∧
    Except.map (fun c => c.bit_rates) (decode (mkC9 2 5)) = .ok [7] ∧
    Except.map (fun c => c.bit_rates) (decode (mkC9 5 2)) = .ok [4] := by
  refine ⟨fun _ _ _ _ _ _ _ _ _ _ _ => rfl, by decide, by decide⟩


/-! ### Helper lemmas for the unpack-loop claims -/

theorem bindE_ok {α β : Type} (a : α) (f : α → Except Err β) :
    (Except.ok a >>= f : Except Err β) = f a := rfl

theorem slice_comp (l : List Bool) (a bits j : Nat) (hj : j < 3) :
    (((l.drop a).take (bits * 3)).drop (j * bits)).take bits =
      (l.drop (a + j * bits)).take bits := by
  rw [List.drop_take, List.take_take, List.drop_drop]
  have h1 : j * bits + bits ≤ bits * 3 := by
    have h2 : (j + 1) * bits ≤ 3 * bits := Nat.mul_le_mul_right bits (by omega)
    calc j * bits + bits = (j + 1) * bits := by ring
    _ ≤ 3 * bits := h2
    _ = bits * 3 := by ring
  rw [min_eq_left (by omega)]

theorem flatMap_blocks_drop_take {α β : Type} (g : α → List β) (k : Nat)
    (hg : ∀ a, (g a).length = k) :
    ∀ (L : List α) (i : Nat) (h : i < L.length),
      ((L.flatMap g).drop (k * i)).take k = g (L.get ⟨i, h⟩) := by
  intro L
  induction L with
  | nil => intro i h; simp at h
  | cons a L ih =>
    intro i h
    match i with
    | 0 =>
      rw [List.flatMap_cons, Nat.mul_zero, List.drop_zero]
      rw [show k = (g a).length from (hg a).symm, List.take_left]
      rfl
    | i + 1 =>
      rw [List.flatMap_cons]
      have hk : k * (i + 1) = (g a).length + k * i := by rw [hg a]; ring
      rw [hk, ← List.drop_drop, List.drop_left]
      exact ih i (by simpa using h)

theorem flatMap_triple_drop_take {α β : Type} (f1 f2 f3 : α → β) (L : List α)
    (i : Nat) (h : i < L.length) :
    ((L.flatMap (fun a => [f1 a, f2 a, f3 a])).drop (3 * i)).take 3 =
      [f1 (L.get ⟨i, h⟩), f2 (L.get ⟨i, h⟩), f3 (L.get ⟨i, h⟩)] :=
  flatMap_blocks_drop_take (fun a => [f1 a, f2 a, f3 a]) 3 (fun _ => rfl) L i h

theorem unpack_triple (s : RangeData) (hs1 : s.min_xyz.length = 3)
    (hs2 : s.extent_xyz.length = 3) (x0 x1 x2 : ℚ) :
    s.unpack [x0, x1, x2] =
      [RangeData.unpack_elem x0 (s.min_xyz.getD 0 0) (s.extent_xyz.getD 0 0),
       RangeData.unpack_elem x1 (s.min_xyz.getD 1 0) (s.extent_xyz.getD 1 0),
       RangeData.unpack_elem x2 (s.min_xyz.getD 2 0) (s.extent_xyz.getD 2 0)] := by
  obtain ⟨a, b, c, hm⟩ := List.length_eq_three.mp hs1
  obtain ⟨d, e, f, he⟩ := List.length_eq_three.mp hs2
  obtain ⟨mx, ex⟩ := s
  simp only at hm he
  subst hm; subst he
  rfl

theorem qDiv_maxInt (i bits : Nat) (hb : 0 < bits) :
    qDiv ((i : Nat) : ℚ) (((((1 <<< bits) - 1 : Nat)) : Nat) : ℚ) =
      ((i : Nat) : ℚ) / ((2 ^ bits : ℚ) - 1) := by
  rw [qDiv_eq]
  congr 1
  rw [Nat.shiftLeft_eq, one_mul]
  push_cast [Nat.one_le_two_pow]
  ring

/-- The two-stage dequantization law for one range-reduced component with
`0 < bits < 32` (proved about the loop body `unpackComponent`; used by the
C4 claim theorem). -/
theorem unpackComponent_two_stage (binary : List Bool) (tds idx bits ns : Nat)
    (mi : Option Nat) (srds : List (Option RangeData)) (rid : Nat) (s rd : RangeData)
    (hb0 : 0 < bits) (hb32 : bits ≠ 32)
    (hsrd : listIndex srds rid = .ok (some s))
    (hs1 : s.min_xyz.length = 3) (hs2 : s.extent_xyz.length = 3)
    (hr1 : rd.min_xyz.length = 3) (hr2 : rd.extent_xyz.length = 3) :
    unpackComponent binary tds idx bits ns mi srds rid rd =
      .ok ((List.range ns).map (fun i => (List.range 3).map (fun j =>
        RangeData.unpack_elem
          (RangeData.unpack_elem
            (((binToNat ((binary.drop (i * tds + idx + j * bits)).take bits) : Nat) : ℚ) /
              ((2 ^ bits : ℚ) - 1))
            (s.min_xyz.getD j 0) (s.extent_xyz.getD j 0))
          (rd.min_xyz.getD j 0) (rd.extent_xyz.getD j 0))),
        some (2 ^ bits - 1)) := by
  have hbne : bits ≠ 0 := by omega
  have hm : (1 <<< bits) - 1 = 2 ^ bits - 1 := by rw [Nat.shiftLeft_eq, one_mul]
  rw [unpackComponent]
  simp only [hbne, hb32, ne_eq, not_false_eq_true, if_true, if_false, ite_true,
    ite_false, reduceIte]
  split
  · rename_i hempty
    have hns : ns = 0 := by
      by_contra hns
      obtain ⟨k, rfl⟩ : ∃ k, ns = k + 1 := ⟨ns - 1, by omega⟩
      rw [List.range_succ_eq_map] at hempty
      simp at hempty
    subst hns
    simp only [List.range_zero, List.map_nil, List.flatMap_nil, bindE_ok]
    rw [hsrd, bindE_ok, hm]
    rfl
  · rename_i hne
    simp only [bindE_ok]
    rw [hsrd, bindE_ok]
    simp only [Except.ok.injEq, Prod.mk.injEq]
    refine ⟨?_, by rw [hm]⟩
    have hfloats : List.map (fun (i : ℕ) => qDiv (↑i) (↑((1 <<< bits) - 1)))
        (List.map binToNat
          ((List.map (fun i => List.take (bits * 3) (List.drop (i * tds + idx) binary))
            (List.range ns)).flatMap
            (fun b => List.map (fun j => List.take bits (List.drop (j * bits) b))
              (List.range 3)))) =
        (List.range ns).flatMap (fun a =>
          [qDiv (↑(binToNat (List.take bits (List.drop (0 * bits)
              (List.take (bits * 3) (List.drop (a * tds + idx) binary)))))) (↑((1 <<< bits) - 1)),
           qDiv (↑(binToNat (List.take bits (List.drop (1 * bits)
              (List.take (bits * 3) (List.drop (a * tds + idx) binary)))))) (↑((1 <<< bits) - 1)),
           qDiv (↑(binToNat (List.take bits (List.drop (2 * bits)
              (List.take (bits * 3) (List.drop (a * tds + idx) binary)))))) (↑((1 <<< bits) - 1))]) := by
      rw [List.map_map, List.flatMap_map, List.map_flatMap]
      rfl
    rw [hfloats, List.map_map, List.map_map]
    apply List.map_congr_left
    intro i hi
    rw [List.mem_range] at hi
    simp only [Function.comp_apply]
    rw [show i * 3 = 3 * i from by ring]
    rw [flatMap_triple_drop_take _ _ _ (List.range ns) i (by simpa using hi)]
    rw [List.get_range]
    rw [unpack_triple s hs1 hs2, unpack_triple rd hr1 hr2]
    rw [show (List.range 3) = [0, 1, 2] from rfl]
    simp only [List.map_cons, List.map_nil]
    rw [slice_comp binary (i * tds + idx) bits 0 (by omega),
        slice_comp binary (i * tds + idx) bits 1 (by omega),
        slice_comp binary (i * tds + idx) bits 2 (by omega)]
    rw [qDiv_maxInt _ _ hb0, qDiv_maxInt _ _ hb0, qDiv_maxInt _ _ hb0]

/-- C4: for a range-reduced component with bit width `0 < b < 32`, each
decoded sub-channel is the MSB-first `b`-bit code divided by `2^b - 1`,
mapped first by the segment-level range triple and then by the clip-level
triple, in that order (first conjunct, about the loop body; the value
`v*segExt+segMin` is then fed to `unpack_elem _ clipMin clipExt`); and on
the concrete clip `mkC4S` (bit width 8, clip range min 0 / extent 1, no
segment range reduction) the packed codes `0x00` and `0xFF` decode to the
real values `0.0` and `1.0` on all three sub-channels (second conjunct). -/
theorem C4_two_stage_dequantization :
    (∀ (binary : List Bool) (tds idx bits ns : Nat) (mi : Option Nat)
       (srds : List (Option RangeData)) (rid : Nat) (s rd : RangeData),
      0 < bits → bits ≠ 32 →
      listIndex srds rid = .ok (some s) →
      s.min_xyz.length = 3 → s.extent_xyz.length = 3 →
      rd.min_xyz.length = 3 → rd.extent_xyz.length = 3 →
      unpackComponent binary tds idx bits ns mi srds rid rd =
        .ok ((List.range ns).map (fun i => (List.range 3).map (fun j =>
          RangeData.unpack_elem
            (RangeData.unpack_elem
              (((binToNat ((binary.drop (i * tds + idx + j * bits)).take bits) : Nat) : ℚ) /
                ((2 ^ bits : ℚ) - 1))
              (s.min_xyz.getD j 0) (s.extent_xyz.getD j 0))
            (rd.min_xyz.getD j 0) (rd.extent_xyz.getD j 0))),
          some (2 ^ bits - 1))) ∧
    Except.map (fun c => c.bone_tracks.map (fun t : BoneTrack => t.track_data))
      (decode mkC4S) = .ok [[[[0, 0, 0], [1, 1, 1]]]] := by
  constructor
  · intro binary tds idx bits ns mi srds rid s rd hb0 hb32 hsrd hs1 hs2 hr1 hr2
    exact unpackComponent_two_stage binary tds idx bits ns mi srds rid s rd
      hb0 hb32 hsrd hs1 hs2 hr1 hr2
  · decide

/-- Witness for `C4_two_stage_dequantization` at bit width 8 with 0 samples
(the formula list over `List.range 0` evaluates to `[]` and the stored
`max_int` to `2^8 - 1 = 255`). -/
theorem C4_two_stage_dequantization_witness :
    unpackComponent [] 0 0 8 0 none [some ⟨[0, 0, 0], [1, 1, 1]⟩] 0
      ⟨[0, 0, 0], [1, 1, 1]⟩ = .ok ([], some 255) := by
  have h := C4_two_stage_dequantization.1 [] 0 0 8 0 none
    [some ⟨[0, 0, 0], [1, 1, 1]⟩] 0 ⟨[0, 0, 0], [1, 1, 1]⟩ ⟨[0, 0, 0], [1, 1, 1]⟩
    (by decide) (by decide) (by decide) (by decide) (by decide) (by decide) (by decide)
  simpa using h


/-- The full-precision (bit width 32) law for one component: each sample's
three sub-channels are the 32-bit MSB-first codes interpreted as float32,
with no normalization and neither range map applied (the output does not
depend on `srds` or `rd`). -/
theorem unpackComponent_full_precision (binary : List Bool) (tds idx ns : Nat)
    (mi : Option Nat) (srds : List (Option RangeData)) (rid : Nat) (rd : RangeData) :
    unpackComponent binary tds idx 32 ns mi srds rid rd =
      .ok ((List.range ns).map (fun i => (List.range 3).map (fun j =>
        decodeF32 (binToNat ((binary.drop (i * tds + idx + j * 32)).take 32)))),
        some (2 ^ 32 - 1)) := by
  have h0 : unpackComponent binary tds idx 32 ns mi srds rid rd =
      .ok ((List.range ns).map (fun i =>
        ((List.map decodeF32 (List.map binToNat
          ((List.map (fun i => List.take (32 * 3) (List.drop (i * tds + idx) binary))
            (List.range ns)).flatMap
            (fun b => List.map (fun j => List.take 32 (List.drop (j * 32) b))
              (List.range 3))))).drop (i * 3)).take 3),
        some ((1 <<< 32) - 1)) := rfl
  rw [h0]
  have hfloats : List.map decodeF32
      (List.map binToNat
        ((List.map (fun i => List.take (32 * 3) (List.drop (i * tds + idx) binary))
          (List.range ns)).flatMap
          (fun b => List.map (fun j => List.take 32 (List.drop (j * 32) b))
            (List.range 3)))) =
      (List.range ns).flatMap (fun a =>
        [decodeF32 (binToNat (List.take 32 (List.drop (0 * 32)
            (List.take (32 * 3) (List.drop (a * tds + idx) binary))))),
         decodeF32 (binToNat (List.take 32 (List.drop (1 * 32)
            (List.take (32 * 3) (List.drop (a * tds + idx) binary))))),
         decodeF32 (binToNat (List.take 32 (List.drop (2 * 32)
            (List.take (32 * 3) (List.drop (a * tds + idx) binary)))))]) := by
    rw [List.map_map, List.flatMap_map, List.map_flatMap]
    rfl
  rw [hfloats]
  rw [show (1 <<< 32 : Nat) - 1 = 2 ^ 32 - 1 from by rw [Nat.shiftLeft_eq, one_mul]]
  congr 1
  congr 1
  apply List.map_congr_left
  intro i hi
  rw [List.mem_range] at hi
  rw [show i * 3 = 3 * i from by ring]
  rw [flatMap_triple_drop_take _ _ _ (List.range ns) i (by simpa using hi)]
  rw [List.get_range]
  rw [show (List.range 3) = [0, 1, 2] from rfl]
  simp only [List.map_cons, List.map_nil]
  rw [slice_comp binary (i * tds + idx) 32 0 (by omega),
      slice_comp binary (i * tds + idx) 32 1 (by omega),
      slice_comp binary (i * tds + idx) 32 2 (by omega)]

/-- Numerator of the magnitude of a float32 value, as a function of the low
31 bits (exponent and mantissa fields). -/
def f32magN (k : Nat) : Nat :=
  (if k / 2 ^ 23 = 0 then k % 2 ^ 23 else 2 ^ 23 + k % 2 ^ 23) * 2 ^ max (k / 2 ^ 23) 1

theorem f32magN_mono (k1 k2 : Nat) (hlt : k1 < k2) (hk2 : k2 < 255 * 2 ^ 23) :
    f32magN k1 < f32magN k2 := by
  have he12 : k1 / 2 ^ 23 ≤ k2 / 2 ^ 23 := Nat.div_le_div_right (le_of_lt hlt)
  have hd1 : k1 = 2 ^ 23 * (k1 / 2 ^ 23) + k1 % 2 ^ 23 := (Nat.div_add_mod k1 (2 ^ 23)).symm
  have hd2 : k2 = 2 ^ 23 * (k2 / 2 ^ 23) + k2 % 2 ^ 23 := (Nat.div_add_mod k2 (2 ^ 23)).symm
  have hm1 : k1 % 2 ^ 23 < 2 ^ 23 := Nat.mod_lt _ (by norm_num)
  have hm2 : k2 % 2 ^ 23 < 2 ^ 23 := Nat.mod_lt _ (by norm_num)
  rcases Nat.eq_or_lt_of_le he12 with heq | hslt
  · have hmlt : k1 % 2 ^ 23 < k2 % 2 ^ 23 := by omega
    rw [f32magN, f32magN, heq]
    exact mul_lt_mul_of_pos_right (by split <;> omega)
      (Nat.pos_pow_of_pos _ (by norm_num))
  · have he2pos : 0 < k2 / 2 ^ 23 := by omega
    have hmax2 : max (k2 / 2 ^ 23) 1 = k2 / 2 ^ 23 := max_eq_left he2pos
    have hlow : f32magN k2 ≥ 2 ^ 23 * 2 ^ (k1 / 2 ^ 23 + 1) := by
      rw [f32magN, hmax2, if_neg (by omega)]
      have h1 : (2 : Nat) ^ (k1 / 2 ^ 23 + 1) ≤ 2 ^ (k2 / 2 ^ 23) :=
        Nat.pow_le_pow_right (by norm_num) (by omega)
      calc 2 ^ 23 * 2 ^ (k1 / 2 ^ 23 + 1) ≤ 2 ^ 23 * 2 ^ (k2 / 2 ^ 23) :=
            Nat.mul_le_mul_left _ h1
        _ ≤ (2 ^ 23 + k2 % 2 ^ 23) * 2 ^ (k2 / 2 ^ 23) :=
            Nat.mul_le_mul_right _ (by omega)
    have hhigh : f32magN k1 < 2 ^ 23 * 2 ^ (k1 / 2 ^ 23 + 1) := by
      rw [f32magN]
      by_cases h0 : k1 / 2 ^ 23 = 0
      · rw [if_pos h0, h0]
        have hmx : max 0 1 = 1 := rfl
        rw [hmx]
        have h24 : (2 : Nat) ^ 23 * 2 ^ (0 + 1) = 2 ^ 24 := by norm_num
        rw [h24]
        have h25 : k1 % 2 ^ 23 * 2 ^ 1 < 2 ^ 23 * 2 := by omega
        omega
      · rw [if_neg h0, max_eq_left (by omega)]
        rw [pow_succ 2 (k1 / 2 ^ 23)]
        rw [show 2 ^ 23 * (2 ^ (k1 / 2 ^ 23) * 2) = (2 ^ 23 * 2) * 2 ^ (k1 / 2 ^ 23) from by ring]
        exact mul_lt_mul_of_pos_right (by omega) (Nat.pos_pow_of_pos _ (by norm_num))
    omega

theorem f32magN_eq_zero (k : Nat) : f32magN k = 0 ↔ k = 0 := by
  rw [f32magN]
  constructor
  · intro h
    rcases Nat.mul_eq_zero.mp h with h1 | h1
    · split at h1
      · rename_i he
        have := Nat.div_add_mod k (2 ^ 23)
        omega
      · omega
    · have := Nat.pos_pow_of_pos (max (k / 2 ^ 23) 1) (show 0 < 2 by norm_num)
      omega
  · intro h
    subst h
    rfl

/-- A finite (exponent field below 255) float32 pattern decodes to a signed
magnitude `±f32magN(low31bits)/2^150`. -/
theorem decodeF32_eq_mag (n : Nat) (hn : n < 2 ^ 32) (he : n / 2 ^ 23 % 256 ≠ 255) :
    decodeF32 n =
      if n / 2 ^ 31 % 2 = 1 then -(((f32magN (n % 2 ^ 31) : Nat) : ℚ) / 2 ^ 150)
      else ((f32magN (n % 2 ^ 31) : Nat) : ℚ) / 2 ^ 150 := by
  have h1 : n / 2 ^ 23 % 256 = (n % 2 ^ 31) / 2 ^ 23 := by omega
  have h2 : n % 2 ^ 23 = (n % 2 ^ 31) % 2 ^ 23 := by omega
  rw [decodeF32]
  simp only [if_neg he]
  rw [f32magN, ← h1, ← h2, Rat.mkRat_eq_div]
  split
  · rw [qNeg_eq]
    simp only [Int.cast_natCast, Nat.cast_pow, Nat.cast_ofNat]
  · simp only [Int.cast_natCast, Nat.cast_pow, Nat.cast_ofNat]

/-- Two distinct finite float32 bit patterns (other than the pair of +0 and -0,
excluded by ruling out the -0 pattern `2^31`) decode to distinct rational
values. -/
theorem decodeF32_injective (a b : Nat) (ha : a < 2 ^ 32) (hb : b < 2 ^ 32)
    (hae : a / 2 ^ 23 % 256 ≠ 255) (hbe : b / 2 ^ 23 % 256 ≠ 255)
    (hna : a ≠ 2 ^ 31) (hnb : b ≠ 2 ^ 31)
    (heq : decodeF32 a = decodeF32 b) : a = b := by
  rw [decodeF32_eq_mag a ha hae, decodeF32_eq_mag b hb hbe] at heq
  have hka : a % 2 ^ 31 < 255 * 2 ^ 23 := by omega
  have hkb : b % 2 ^ 31 < 255 * 2 ^ 23 := by omega
  have hmaginj : f32magN (a % 2 ^ 31) = f32magN (b % 2 ^ 31) → a % 2 ^ 31 = b % 2 ^ 31 := by
    intro h
    rcases lt_trichotomy (a % 2 ^ 31) (b % 2 ^ 31) with hlt | heq2 | hgt
    · exact absurd h (Nat.ne_of_lt (f32magN_mono _ _ hlt hkb))
    · exact heq2
    · exact absurd h.symm (Nat.ne_of_lt (f32magN_mono _ _ hgt hka))
  have hnn : ∀ k : Nat, (0 : ℚ) ≤ ((f32magN k : Nat) : ℚ) / 2 ^ 150 := by
    intro k
    positivity
  by_cases sa : a / 2 ^ 31 % 2 = 1 <;> by_cases sb : b / 2 ^ 31 % 2 = 1 <;>
    simp only [sa, sb, if_true, if_false, ite_true, ite_false, reduceIte, neg_inj] at heq
  · have hx : ((f32magN (a % 2 ^ 31) : Nat) : ℚ) = ((f32magN (b % 2 ^ 31) : Nat) : ℚ) := by
      field_simp at heq
      exact_mod_cast heq
    have := hmaginj (by exact_mod_cast hx)
    omega
  · have h0 : ((f32magN (a % 2 ^ 31) : Nat) : ℚ) / 2 ^ 150 = 0 := by
      have h1 := hnn (a % 2 ^ 31)
      have h2 := hnn (b % 2 ^ 31)
      nlinarith [heq]
    have h0b : f32magN (a % 2 ^ 31) = 0 := by
      field_simp at h0
      exact_mod_cast h0
    have hka0 : a % 2 ^ 31 = 0 := (f32magN_eq_zero _).mp h0b
    exact absurd (by omega : a = 2 ^ 31) hna
  · have h0 : ((f32magN (b % 2 ^ 31) : Nat) : ℚ) / 2 ^ 150 = 0 := by
      have h1 := hnn (a % 2 ^ 31)
      have h2 := hnn (b % 2 ^ 31)
      nlinarith [heq]
    have h0b : f32magN (b % 2 ^ 31) = 0 := by
      field_simp at h0
      exact_mod_cast h0
    have hkb0 : b % 2 ^ 31 = 0 := (f32magN_eq_zero _).mp h0b
    exact absurd (by omega : b = 2 ^ 31) hnb
  · have hx : ((f32magN (a % 2 ^ 31) : Nat) : ℚ) = ((f32magN (b % 2 ^ 31) : Nat) : ℚ) := by
      field_simp at heq
      exact_mod_cast heq
    have := hmaginj (by exact_mod_cast hx)
    omega

/-- C5: a component with bit width 32 is decoded by reinterpreting each
32-bit MSB-first code as a big-endian IEEE-754 float32, with no
normalization and neither the segment- nor clip-level range map applied —
the first conjunct's right-hand side is `decodeF32` of the raw code and
does not mention `srds` or `rd`.  The decoding is bitwise faithful:
distinct finite patterns (excluding the -0 pattern, whose exact value
collides with +0 in the rational model) decode to distinct values (second
conjunct).  Third conjunct: on the concrete clip `mkC5S` (one sample,
segment range reduction active), the patterns `0xC0A00000`, `0x00000000`
and `0x00000001` decode to exactly -5, 0 and 2^-149. -/
theorem C5_full_precision_escape :
    (∀ (binary : List Bool) (tds idx ns : Nat) (mi : Option Nat)
       (srds : List (Option RangeData)) (rid : Nat) (rd : RangeData),
      unpackComponent binary tds idx 32 ns mi srds rid rd =
        .ok ((List.range ns).map (fun i => (List.range 3).map (fun j =>
          decodeF32 (binToNat ((binary.drop (i * tds + idx + j * 32)).take 32)))),
          some (2 ^ 32 - 1))) ∧
    (∀ a b : Nat, a < 2 ^ 32 → b < 2 ^ 32 →
      a / 2 ^ 23 % 256 ≠ 255 → b / 2 ^ 23 % 256 ≠ 255 →
      a ≠ 2 ^ 31 → b ≠ 2 ^ 31 →
      decodeF32 a = decodeF32 b → a = b) ∧
    Except.map (fun c => c.bone_tracks.map (fun t : BoneTrack => t.track_data))
      (decode mkC5S) = .ok [[[[-5, 0, mkRat 1 (2 ^ 149)]]]] := by
  refine ⟨?_, ?_, by decide⟩
  · intro binary tds idx ns mi srds rid rd
    exact unpackComponent_full_precision binary tds idx ns mi srds rid rd
  · intro a b ha hb hae hbe hna hnb heq
    exact decodeF32_injective a b ha hb hae hbe hna hnb heq

/-- Witness for `C5_full_precision_escape`: the structural conjunct at 0
samples, and the injectivity conjunct at the patterns of -5.0 and 1.0. -/
theorem C5_full_precision_escape_witness :
    unpackComponent [] 0 0 32 0 none [] 0 ⟨[], []⟩ = .ok ([], some (2 ^ 32 - 1)) ∧
    (decodeF32 0xC0A00000 = decodeF32 0x3F800000 → (0xC0A00000 : Nat) = 0x3F800000) := by
  constructor
  · have h := C5_full_precision_escape.1 [] 0 0 0 none [] 0 ⟨[], []⟩
    simpa using h
  · intro heq
    exact C5_full_precision_escape.2.1 0xC0A00000 0x3F800000 (by decide) (by decide)
      (by decide) (by decide) (by decide) (by decide) heq


set_option maxRecDepth 100000 in
theorem setupBoneTracksGo_spec (dflags cflags : List Bool) (na : Nat) (cdata : List ℚ) :
    ∀ (n i cc : Nat) (rc : Int) (ts : List BoneTrack) (cc2 : Nat) (rc2 : Int),
      setupBoneTracksGo dflags cflags na cdata i n cc rc = (ts, cc2, rc2) →
      ts.length = n ∧
      cc2 = cc + ((ts.map BoneTrack.get_constant_count).sum) ∧
      (∀ j (h : j < ts.length),
        (ts.get ⟨j, h⟩).constant_list =
          (cdata.drop (cc + (((ts.take j).map BoneTrack.get_constant_count).sum))).take
            ((ts.get ⟨j, h⟩).get_constant_count)) := by
  intro n
  induction n with
  | zero =>
    intro i cc rc ts cc2 rc2 heq
    simp only [setupBoneTracksGo] at heq
    injection heq with h1 h23
    injection h23 with h2 h3
    subst h1; subst h2; subst h3
    refine ⟨rfl, by simp, ?_⟩
    intro j h
    simp at h
  | succ n ih =>
    intro i cc rc ts cc2 rc2 heq
    simp only [setupBoneTracksGo] at heq
    set ud := applyFlagString (pySlice dflags (i * na) ((i + 1) * na)) with hud
    set uc := applyFlagString (pySlice cflags (i * na) ((i + 1) * na)) with huc
    set K := BoneTrack.get_constant_count ⟨ud, uc, [], []⟩ with hK
    set t : BoneTrack := ⟨ud, uc, pySlice cdata cc (cc + K), []⟩ with ht
    set r := setupBoneTracksGo dflags cflags na cdata (i + 1) n (cc + K)
      (rc + t.get_range_count) with hr
    obtain ⟨ts', cc', rc'⟩ := r
    injection heq with h1 h23
    injection h23 with h2 h3
    subst h1; subst h2; subst h3
    obtain ⟨ihl, ihc, ihs⟩ := ih (i + 1) (cc + K) (rc + t.get_range_count) ts' cc' rc' hr.symm
    have hcount : BoneTrack.get_constant_count t = K := rfl
    refine ⟨by simp [ihl], ?_, ?_⟩
    · rw [ihc]
      simp only [List.map_cons, List.sum_cons, hcount]
      omega
    · intro j h
      match j with
      | 0 =>
        simp only [List.get, List.take_zero, List.map_nil, List.sum_nil, Nat.add_zero]
        show t.constant_list = _
        rw [ht]
        simp only [pySlice, hcount, Nat.add_sub_cancel_left]
        rfl
      | j + 1 =>
        simp only [List.get, List.take_succ_cons, List.map_cons, List.sum_cons, hcount]
        rw [show cc + (K + (List.map BoneTrack.get_constant_count (List.take j ts')).sum) =
          cc + K + (List.map BoneTrack.get_constant_count (List.take j ts')).sum by omega]
        exact ihs j (by simpa using h)

/-- C3 (amended): `set_constants` hands each bone a consecutive slice of the
constant-data floats — bone `j` receives the floats starting at the running
sum of the earlier bones' `get_constant_count`, of length its own
`get_constant_count`, and the total consumed equals the sum over all bones —
but no comparison of that total against the section length divided by 4 is
ever made (see the counterexample theorem for a succeeding decode with a
mismatch). -/
theorem C3_constant_slices_amended (dflags cflags : List Bool) (na : Nat)
    (cdata : List ℚ) (nb : Nat) (ts : List BoneTrack) (cc2 : Nat) (rc2 : Int)
    (heq : setupBoneTracks dflags cflags na cdata nb = (ts, cc2, rc2)) :
    ts.length = nb ∧
    cc2 = (ts.map BoneTrack.get_constant_count).sum ∧
    (∀ j (h : j < ts.length),
      (ts.get ⟨j, h⟩).constant_list =
        (cdata.drop (((ts.take j).map BoneTrack.get_constant_count).sum)).take
          ((ts.get ⟨j, h⟩).get_constant_count)) := by
  obtain ⟨h1, h2, h3⟩ :=
    setupBoneTracksGo_spec dflags cflags na cdata nb 0 0 0 ts cc2 rc2 heq
  exact ⟨h1, by omega, by simpa using h3⟩

/-- Witness for `C3_constant_slices_amended` at one bone with three
attributes, all flagged constant and none default (6 constant floats). -/
theorem C3_constant_slices_amended_witness :
    (setupBoneTracks [false, false, false] [true, true, true] 3
        [5, 6, 7, 8, 9, 10, 11] 1).1.length = 1 ∧
    (setupBoneTracks [false, false, false] [true, true, true] 3
        [5, 6, 7, 8, 9, 10, 11] 1).2.1 =
      ((setupBoneTracks [false, false, false] [true, true, true] 3
          [5, 6, 7, 8, 9, 10, 11] 1).1.map BoneTrack.get_constant_count).sum := by
  have h := C3_constant_slices_amended [false, false, false] [true, true, true] 3
      [5, 6, 7, 8, 9, 10, 11] 1
      (setupBoneTracks [false, false, false] [true, true, true] 3
        [5, 6, 7, 8, 9, 10, 11] 1).1
      (setupBoneTracks [false, false, false] [true, true, true] 3
        [5, 6, 7, 8, 9, 10, 11] 1).2.1
      (setupBoneTracks [false, false, false] [true, true, true] 3
        [5, 6, 7, 8, 9, 10, 11] 1).2.2 rfl
  exact ⟨h.1, h.2.1⟩

theorem wordBits32_length (w : Nat) : (wordBits32 w).length = 32 := by
  simp [wordBits32]

theorem flatMap_wordBits_get (L : List Nat) :
    ∀ (i : Nat), i < 32 * L.length →
      (L.flatMap wordBits32).get? i =
        some ((L.getD (i / 32) 0).testBit (31 - i % 32)) := by
  induction L with
  | nil => intro i h; simp at h
  | cons w L ih =>
    intro i h
    rw [List.flatMap_cons]
    by_cases hi : i < 32
    · rw [List.get?_append (by rw [wordBits32_length]; exact hi)]
      rw [Nat.div_eq_of_lt hi, Nat.mod_eq_of_lt hi, List.getD_cons_zero]
      simp only [wordBits32, List.get?_map, List.get?_range hi, Option.map_some]
      rfl
    · push_neg at hi
      obtain ⟨j, rfl⟩ : ∃ j, i = 32 + j := ⟨i - 32, by omega⟩
      rw [List.get?_append_right (by rw [wordBits32_length]; omega)]
      rw [wordBits32_length]
      have h32 : 32 + j - 32 = j := by omega
      rw [h32]
      have hj : j < 32 * L.length := by
        simp only [List.length_cons] at h
        omega
      rw [ih j hj]
      have hdiv : (32 + j) / 32 = j / 32 + 1 := by omega
      have hmod : (32 + j) % 32 = j % 32 := by omega
      rw [hdiv, hmod, List.getD_cons_succ]

/-- C7: a track-flag bitset is decoded as 32-bit words whose bits are read
from the most significant bit down — flag `i` is bit `31 - i % 32` of word
`i / 32` — and the flattened list is truncated to at most
`num_bones * num_attributes` entries. -/
theorem C7_bitset_msb_first (bitset : List Nat) (num_bones num_attributes i : Nat)
    (hna : i < num_bones * num_attributes)
    (hlen : i < 32 * bitset.length) :
    (get_tracks_flags bitset num_bones num_attributes).get? i =
      some ((bitset.getD (i / 32) 0).testBit (31 - i % 32)) ∧
    (get_tracks_flags bitset num_bones num_attributes).length ≤
      num_bones * num_attributes := by
  constructor
  · rw [get_tracks_flags, List.get?_take hna]
    exact flatMap_wordBits_get bitset i hlen
  · rw [get_tracks_flags]
    simp

/-- Witness for `C7_bitset_msb_first` at the two-word bitset
`[0x80000001, 5]` and flag index 31 (the least significant bit of the first
word). -/
theorem C7_bitset_msb_first_witness :
    (get_tracks_flags [2147483649, 5] 20 2).get? 31 =
      some (([2147483649, 5].getD (31 / 32) 0).testBit (31 - 31 % 32)) ∧
    (get_tracks_flags [2147483649, 5] 20 2).length ≤ 20 * 2 :=
  C7_bitset_msb_first [2147483649, 5] 20 2 31 (by decide) (by decide)

/-- C10 (amended): when the sample count is positive, a range-reduced
component of bit width 0 with `max_int` still unassigned makes the unpack
fail with the name-resolution error (first conjunct, over every input), and
the concrete clip `mkC10 1 0 0 0` (1 sample, bit-rate index 0) makes the
whole decode fail with that error (second conjunct).  The positivity of the
sample count is necessary: see the counterexample theorem. -/
theorem C10_zero_bits_name_error :
    (∀ (binary : List Bool) (tds idx ns : Nat) (srds : List (Option RangeData))
       (rid : Nat) (rd : RangeData), 0 < ns →
      unpackComponent binary tds idx 0 ns none srds rid rd = .error .nameError) ∧
    decode (mkC10 1 0 0 0) = .error .nameError := by
  constructor
  · intro binary tds idx ns srds rid rd hns
    obtain ⟨k, rfl⟩ : ∃ k, ns = k + 1 := ⟨ns - 1, by omega⟩
    simp [unpackComponent, Nat.succ_mul, List.replicate_succ]
    rfl
  · decide

/-- Witness for `C10_zero_bits_name_error` at one sample and empty
surroundings. -/
theorem C10_zero_bits_name_error_witness :
    unpackComponent [] 0 0 0 1 none [] 0 ⟨[], []⟩ = .error .nameError :=
  C10_zero_bits_name_error.1 [] 0 0 1 [] 0 ⟨[], []⟩ (by decide)

/-- C10 (counterexample): with 0 samples the bit-width-0 component does not
touch `max_int`, so decode of `mkC10 0 0 0 0` succeeds (bit-rate list
`[0]`) instead of raising the name-resolution error the claim predicts
unconditionally. -/
theorem C10_zero_bits_counterexample :
    Except.map (fun c => c.bit_rates) (decode (mkC10 0 0 0 0)) = .ok [0] := by
  decide


set_option maxHeartbeats 32000000 in
/-- C8: on the `mkPad` layout every padding run consists solely of the
sentinel byte `0xCD` — with all three runs (the 1-byte pad-to-2 after the
bit-rate table, the 2-byte pad-to-4 before the packed track data, and the
15-byte tail) at the sentinel, decode succeeds (first conjunct), while an
altered byte makes decode fail with the corrupt-data error: in the first
run for every one of the 255 non-sentinel byte values (second conjunct),
and in the second run and the tail for the probe values 0 and 255
(remaining conjuncts). -/
theorem C8_padding_sentinel :
    Except.map (fun c => c.bit_rates)
      (decode (mkPad 0xcd 0xcd 0xcd (List.replicate 15 0xcd))) = .ok [0] ∧
    (∀ b : Nat, b < 256 → b ≠ 0xcd →
      decode (mkPad b 0xcd 0xcd (List.replicate 15 0xcd)) = .error .corruptData) ∧
    decode (mkPad 0xcd 0 0xcd (List.replicate 15 0xcd)) = .error .corruptData ∧
    decode (mkPad 0xcd 255 0xcd (List.replicate 15 0xcd)) = .error .corruptData ∧
    decode (mkPad 0xcd 0xcd 0xcd (0 :: List.replicate 14 0xcd)) =
      .error .corruptData ∧
    decode (mkPad 0xcd 0xcd 0xcd (255 :: List.replicate 14 0xcd)) =
      .error .corruptData := by
  exact ⟨by decide, by decide, by decide, by decide, by decide, by decide⟩

/-- Witness for `C8_padding_sentinel`: altering the pad-to-2 byte to 0
raises the corrupt-data error. -/
theorem C8_padding_sentinel_witness :
    decode (mkPad 0 0xcd 0xcd (List.replicate 15 0xcd)) = .error .corruptData :=
  C8_padding_sentinel.2.1 0 (by decide) (by decide)

end Acl
